import Mathlib

/-!
Verification of the debrid-server repository: a shallow embedding of its
proxy-forwarding layer (`services/proxyForwarder.js`), its users router
(`routes/users.js`) and its gift-cards router (`routes/giftCards.js`),
together with theorems settling the specification claims about them.

Conventions of the embedding:
* HTTP header maps are association lists of (name, value) string pairs, in
  object insertion order; a JS falsy header value is the empty string.
* JS numbers that the code validates with `Number.isFinite` are embedded as
  integers (`Int`); document ids as `Nat`.
* Fallible route code (`throw createError(status, msg)`) is embedded with
  `Except Nat` carrying the HTTP status.
* Database calls thread an explicit store value, so that a handler that
  throws midway still returns the store produced by the writes before the
  throw.
-/

namespace DebridServer

/-! ## ASCII character classes used by the routers' regexes -/

/-- `[0-9]` -/
def isAsciiDigitChar (c : Char) : Bool :=
  48 ≤ c.toNat && c.toNat ≤ 57

/-- `[A-Z]` -/
def isAsciiUpperChar (c : Char) : Bool :=
  65 ≤ c.toNat && c.toNat ≤ 90

/-- `[a-z]` -/
def isAsciiLowerChar (c : Char) : Bool :=
  97 ≤ c.toNat && c.toNat ≤ 122

/-- `[0-9a-z]` with the `i` flag, i.e. `[0-9A-Za-z]`. -/
def isAsciiAlnumChar (c : Char) : Bool :=
  isAsciiDigitChar c || isAsciiUpperChar c || isAsciiLowerChar c

/-- JS `String.prototype.toUpperCase` restricted to ASCII, applied
characterwise. -/
def asciiToUpper (c : Char) : Char :=
  if isAsciiLowerChar c then Char.ofNat (c.toNat - 32) else c

/-- JS `String.prototype.trim`: strip leading and trailing whitespace. -/
def jsTrim (s : String) : String :=
  String.mk
    (((s.data.dropWhile Char.isWhitespace).reverse.dropWhile
        Char.isWhitespace).reverse)


/-- JS `String.prototype.toLowerCase` restricted to ASCII, applied
characterwise. -/
def asciiToLower (c : Char) : Char :=
  if isAsciiUpperChar c then Char.ofNat (c.toNat + 32) else c

/-- `toLowerCase` of a whole string (ASCII model). -/
def jsToLower (s : String) : String :=
  String.mk (s.data.map asciiToLower)

/-- JS `String.prototype.startsWith`. -/
def jsStartsWith (s t : String) : Bool :=
  t.data.isPrefixOf s.data

/-! ## Proxy forwarder: `services/proxyForwarder.js` -/

/-- A header map as JS `Object.entries` order: list of (key, value). -/
abbrev Headers := List (String × String)

/-- `hopByHopHeaders` set from proxyForwarder.js. -/
def hopByHopHeaders : List String :=
  ["connection", "keep-alive", "proxy-authenticate", "proxy-authorization",
   "te", "trailers", "transfer-encoding", "upgrade", "host"]

/-- `methodsWithoutBody` set from proxyForwarder.js. -/
def methodsWithoutBody : List String := ["get", "head"]

/-- `normalizeToken`: empty (falsy) value gives "", a value already starting
with "bearer " (case-insensitive) passes through, otherwise "Bearer " is
prepended. -/
def normalizeToken (value : String) : String :=
  if value = "" then ""
  else if jsStartsWith (jsToLower value) "bearer " then value
  else "Bearer " ++ value

/-- One step of the `Object.entries(incoming).forEach` loop of
`buildForwardHeaders`: keep a header unless its value is falsy or its
lower-cased name is hop-by-hop. -/
def keepForwardHeader (kv : String × String) : Bool :=
  kv.2 != "" && !(hopByHopHeaders.contains (jsToLower kv.1))

/-- `buildForwardHeaders(incoming, allowEnvToken)` with the configured
`config.defaultToken` passed explicitly: filters falsy-valued and hop-by-hop
headers, then assigns `headers.authorization` (exact lower-case key) when
`allowEnvToken` holds, a default token is configured, and no `authorization`
key is present in the object built so far. -/
def buildForwardHeaders (incoming : Headers) (allowEnvToken : Bool)
    (defaultToken : String) : Headers :=
  let headers := incoming.filter keepForwardHeader
  if allowEnvToken && defaultToken != "" &&
      !(headers.any (fun kv => kv.1 == "authorization")) then
    headers ++ [("authorization", normalizeToken defaultToken)]
  else
    headers

/-- `shouldSendBody`: true unless the lower-cased method is get or head. -/
def shouldSendBody (method : String) : Bool :=
  !(methodsWithoutBody.contains (jsToLower method))

/-- The inbound Express request fields the proxy handler reads. `body` is
`none` when `req.body` is falsy, `some kvs` for an object with entries
`kvs`. -/
structure ClientRequest where
  method : String
  headers : Headers
  query : List (String × String)
  body : Option (List (String × String))
  deriving Repr, DecidableEq

/-- The axios request the handler builds: method, forwarded headers, query
params, and `data` (absent unless the method may carry a body and the body
object is non-empty). -/
structure AxiosRequest where
  method : String
  headers : Headers
  params : List (String × String)
  data : Option (List (String × String))
  deriving Repr, DecidableEq

/-- The request-construction part of `proxyHandler` (proxyForwarder.js
lines 108-125): forward headers, copy method and query, and attach
`axiosConfig.data = req.body` only when `shouldSendBody(req.method)` and
`req.body` is a non-empty object. -/
def buildAxiosRequest (req : ClientRequest) (allowEnvToken : Bool)
    (defaultToken : String) : AxiosRequest :=
  { method := req.method
    headers := buildForwardHeaders req.headers allowEnvToken defaultToken
    params := req.query
    data :=
      match req.body with
      | none => none
      | some kvs =>
          if shouldSendBody req.method && kvs.length > 0 then some kvs
          else none }

/-- An axios failure as the catch block sees it: an optional upstream
response (status, body), an optional transport error code, and a message. -/
structure AxiosError where
  response : Option (Nat × String)
  code : Option String
  message : String
  deriving Repr, DecidableEq

/-- What the catch block does with the failure. -/
inductive ProxyOutcome where
  /-- `res.status(status).send(data)` -/
  | relay (status : Nat) (data : String)
  /-- `next(createError(status, message))` -/
  | httpError (status : Nat) (message : String)
  deriving Repr, DecidableEq

/-- The catch block of `proxyHandler` (proxyForwarder.js lines 141-156):
relay any attached upstream response; translate `ECONNABORTED` to 504;
translate everything else to 502, prefixing the configured summary when one
is present (`summary` empty string is the unconfigured/falsy case). -/
def translateProxyError (summary : String) (error : AxiosError) :
    ProxyOutcome :=
  match error.response with
  | some (status, data) => .relay status data
  | none =>
      if error.code = some "ECONNABORTED" then
        .httpError 504 "Upstream request timed out"
      else
        .httpError 502
          (if summary ≠ "" then summary ++ " failed: " ++ error.message
           else error.message)

/-! ## Path templating: `buildUpstreamPath` (proxyForwarder.js lines 19-35) -/

/-- Word characters of the placeholder regex `/:([A-Za-z0-9_]+)/g`. -/
def isTemplateWordChar (c : Char) : Bool :=
  isAsciiAlnumChar c || c = '_'

/-- Characters `encodeURIComponent` leaves unescaped:
`A-Z a-z 0-9 - _ . ! ~ * ' ( )`. -/
def isUriUnreserved (c : Char) : Bool :=
  isAsciiAlnumChar c ||
    ['-', '_', '.', '!', '~', '*', Char.ofNat 39, '(', ')'].contains c

/-- UTF-8 bytes of a unicode scalar value. -/
def utf8Bytes (n : Nat) : List Nat :=
  if n < 0x80 then [n]
  else if n < 0x800 then [0xC0 + n / 64, 0x80 + n % 64]
  else if n < 0x10000 then
    [0xE0 + n / 4096, 0x80 + n / 64 % 64, 0x80 + n % 64]
  else
    [0xF0 + n / 262144, 0x80 + n / 4096 % 64, 0x80 + n / 64 % 64,
     0x80 + n % 64]

/-- Upper-case hex digit for a value below 16. -/
def hexDigitChar (n : Nat) : Char :=
  if n < 10 then Char.ofNat (48 + n) else Char.ofNat (65 + n - 10)

/-- `%XX` escape of one byte. -/
def percentEncodeByte (b : Nat) : List Char :=
  ['%', hexDigitChar (b / 16), hexDigitChar (b % 16)]

/-- JS `encodeURIComponent`: unreserved characters pass through, every
other character is percent-encoded bytewise in UTF-8. -/
def encodeURIComponent (s : String) : String :=
  String.mk (s.data.flatMap fun c =>
    if isUriUnreserved c then [c]
    else (utf8Bytes c.toNat).flatMap percentEncodeByte)

/-- The `template.replace(/:([A-Za-z0-9_]+)/g, ...)` scan of
`buildUpstreamPath`: at each `:` followed by a non-empty maximal run of
word characters, substitute the parameter when it is defined
(URL-encoded) and keep `:name` verbatim when it is `undefined`; every
other character is copied. -/
def renderTemplateChars (params : String → Option String) :
    List Char → List Char
  | [] => []
  | c :: rest =>
    if c = ':' && !(rest.takeWhile isTemplateWordChar).isEmpty then
      (match params (String.mk (rest.takeWhile isTemplateWordChar)) with
       | none => ':' :: rest.takeWhile isTemplateWordChar
       | some v => (encodeURIComponent v).data) ++
        renderTemplateChars params (rest.dropWhile isTemplateWordChar)
    else
      c :: renderTemplateChars params rest
termination_by l => l.length
decreasing_by
  · exact Nat.lt_succ_of_le (List.dropWhile_sublist _).length_le
  · simp

/-- The `template` argument of `buildUpstreamPath`: absent (`undefined` /
`null`), a string, or a function of the route parameters. -/
inductive UpstreamTemplate where
  | undef
  | str (s : String)
  | fn (f : (String → Option String) → String)

/-- `buildUpstreamPath(template, params)`: a function template is applied,
a falsy template yields `""`, and a string template is rendered by the
placeholder scan. -/
def buildUpstreamPath (template : UpstreamTemplate)
    (params : String → Option String) : String :=
  match template with
  | .fn f => f params
  | .undef => ""
  | .str s =>
      if s = "" then ""
      else String.mk (renderTemplateChars params s.data)

/-- Spec-side token of a path template: a literal character or a
placeholder `:name`. -/
inductive TemplateTok where
  | lit (c : Char)
  | placeholder (name : List Char)
  deriving Repr, DecidableEq

/-- Spec-side tokenizer: a placeholder is a `:` followed by a non-empty
maximal run of characters from `A-Za-z0-9_`. -/
def tokenizeTemplate : List Char → List TemplateTok
  | [] => []
  | c :: rest =>
    if c = ':' && !(rest.takeWhile isTemplateWordChar).isEmpty then
      .placeholder (rest.takeWhile isTemplateWordChar) ::
        tokenizeTemplate (rest.dropWhile isTemplateWordChar)
    else
      .lit c :: tokenizeTemplate rest
termination_by l => l.length
decreasing_by
  · exact Nat.lt_succ_of_le (List.dropWhile_sublist _).length_le
  · simp

/-- Spec-side rendering of one token: placeholders with a defined
parameter become the URL-encoded value, placeholders with an undefined
parameter stay verbatim as `:name`, literals are copied. -/
def renderTok (params : String → Option String) : TemplateTok → List Char
  | .lit c => [c]
  | .placeholder name =>
      match params (String.mk name) with
      | none => ':' :: name
      | some v => (encodeURIComponent v).data

/-- Spec-side rendering of a whole template string. -/
def specRenderTemplate (params : String → Option String)
    (l : List Char) : List Char :=
  (tokenizeTemplate l).flatMap (renderTok params)

/-! ## Gift-card numbers (giftCards router lines 22-94) -/

/-- Generation alphabet. -/
def CHARSET : List Char := "ABCDEFGHIJKLMNOPQRSTUVWXYZ0123456789".data

/-- Raw key length. -/
def RAW_KEY_LENGTH : Nat := 15

/-- Segment size of the dashed format. -/
def SEGMENT_SIZE : Nat := 5

/-- `CARD_BODY_PATTERN = /^[A-Z0-9]+$/` membership of one character. -/
def isCardBodyChar (c : Char) : Bool :=
  isAsciiUpperChar c || isAsciiDigitChar c

/-- `CARD_BODY_PATTERN.test`: non-empty and all characters in `[A-Z0-9]`. -/
def cardBodyPattern (s : List Char) : Bool :=
  !s.isEmpty && s.all isCardBodyChar

/-- `formatKey(raw)`: `raw.slice(0,5) + "-" + raw.slice(5,10) + "-" +
raw.slice(10)`. -/
def formatKey (raw : String) : String :=
  String.mk (raw.data.take SEGMENT_SIZE) ++ "-" ++
    String.mk ((raw.data.drop SEGMENT_SIZE).take SEGMENT_SIZE) ++ "-" ++
    String.mk (raw.data.drop (SEGMENT_SIZE * 2))

/-- The `value.replace(/[^0-9a-z]/gi, "").toUpperCase()` step of
`normalizeCardNumber`. -/
def compactCardInput (value : String) : List Char :=
  (value.data.filter isAsciiAlnumChar).map asciiToUpper

/-- `normalizeCardNumber`: reject blank input, compact and upper-case,
require exactly 15 characters matching `[A-Z0-9]+`, and return the dashed
canonical form. Errors carry the HTTP status (400). -/
def normalizeCardNumber (value : String) : Except Nat String :=
  if jsTrim value = "" then .error 400
  else
    let compact := compactCardInput value
    if compact.length ≠ RAW_KEY_LENGTH || !cardBodyPattern compact then
      .error 400
    else
      .ok (formatKey (String.mk compact))

/-- `createCardNumber` with the `crypto.randomInt` draws supplied as a
function from the loop index to an index into `CHARSET`. -/
def createCardNumber (pick : Nat → Fin CHARSET.length) : String :=
  formatKey (String.mk
    ((List.range RAW_KEY_LENGTH).map fun i => CHARSET.get (pick i)))

/-! ## Document store -/

/-- A user document (users router `createUserDocument` fields). -/
structure User where
  id : Nat
  email : String
  password : String
  storage_all : Int
  storage_used : Int
  storage_expired_at : Option String
  deleted : Bool
  role : String
  created_at : String
  updated_at : String
  token : Option String
  last_login_at : Option String
  email_verified : Bool
  email_verified_at : Option String
  deriving Repr, DecidableEq

/-- A gift card's `used_by` subdocument. -/
structure UsedBy where
  user_id : Nat
  email : String
  deriving Repr, DecidableEq

/-- A gift-card document (giftCards router `buildGiftCardDocument`). -/
structure GiftCard where
  id : Nat
  card_number : String
  storage : Int
  value : Int
  used : Bool
  used_by : Option UsedBy
  metadata : List (String × String)
  created_at : String
  updated_at : String
  deriving Repr, DecidableEq

/-- The `user_snapshot` subdocument of a redeem record. -/
structure UserSnapshot where
  email : String
  storage_all : Int
  storage_used : Int
  deriving Repr, DecidableEq

/-- A redeem record (giftCards router `redeemDoc`). -/
structure RedeemRecord where
  id : Nat
  card_number : String
  gift_card_id : Nat
  user_id : Nat
  user_email : String
  user_snapshot : UserSnapshot
  storage_allocated : Int
  storage_expired_at : String
  redeemed_at : String
  deriving Repr, DecidableEq

/-- The three Mongo collections the claims touch. -/
structure Db where
  users : List User
  giftCards : List GiftCard
  userRedeems : List RedeemRecord
  deriving Repr, DecidableEq

/-- Mongo `findOneAndUpdate` with `returnDocument: "after"` over a list of
documents: rewrite the first document matching `p` with `f` and also
return it; return `none` and the unchanged list when nothing matches. -/
def updateFirst (p : α → Bool) (f : α → α) : List α → List α × Option α
  | [] => ([], none)
  | x :: xs =>
      if p x then (f x :: xs, some (f x))
      else
        let r := updateFirst p f xs
        (x :: r.1, r.2)

/-! ## Users router validators (users.js lines 29-129) -/

/-- `CHINA_TIME_OFFSET_MS` from utils/time.js. -/
def CHINA_TIME_OFFSET_MS : Int := 8 * 60 * 60 * 1000

/-- The JS `Date` library functions the routers rely on, supplied as an
oracle: `parse` is `new Date(string).getTime()` (`none` for an Invalid
Date), `iso` is `Date.prototype.toISOString` on a timestamp. -/
structure JsDate where
  parse : String → Option Int
  iso : Int → String

/-- `toChineseIsoString` from utils/time.js on a timestamp: ISO string of
the time shifted by the China offset. -/
def toChineseIsoString (jd : JsDate) (t : Int) : String :=
  jd.iso (t + CHINA_TIME_OFFSET_MS)

/-- `normalizeEmail`: trim, reject blank, lower-case, require an `@` not
in first position. -/
def normalizeEmail (value : String) : Except Nat String :=
  if jsTrim value = "" then .error 400
  else
    let normalized := jsToLower (jsTrim value)
    if !(normalized.data.contains '@') || jsStartsWith normalized "@" then
      .error 400
    else .ok normalized

/-- `parsePassword`: at least 6 characters. -/
def parsePassword (value : String) : Except Nat String :=
  if value.length < 6 then .error 400 else .ok value

/-- `parseNumberField`: the payload value is already a number in this
embedding; reject negatives (`Number.isFinite` always holds of an `Int`). -/
def parseNumberField (value : Int) : Except Nat Int :=
  if value < 0 then .error 400 else .ok value

/-- `parseBooleanField` restricted to boolean-typed payloads: a present
boolean is returned, anything else falls back. -/
def parseBooleanField (value : Option Bool) (fallback : Bool) : Bool :=
  value.getD fallback

/-- `parseNullableDateField`: `null`/empty gives `null`, an unparsable
date is a 400, a parsable one is re-rendered via `toChineseIsoString`. -/
def parseNullableDateField (jd : JsDate) (value : Option String) :
    Except Nat (Option String) :=
  match value with
  | none => .ok none
  | some s =>
      if s = "" then .ok none
      else
        match jd.parse s with
        | none => .error 400
        | some t => .ok (some (toChineseIsoString jd t))

/-- `enforceStorageInvariant` (users.js lines 125-129). -/
def enforceStorageInvariant (storageAll storageUsed : Int) :
    Except Nat Unit :=
  if storageUsed > storageAll then .error 400 else .ok ()

/-- `isAdmin`: `(user?.role || "standard") === "admin"`; an empty role
string is the falsy case. -/
def isAdmin (u : User) : Bool :=
  (if u.role = "" then "standard" else u.role) = "admin"

/-! ## `createUserDocument` and `buildUpdateDocument` -/

/-- Payload of `POST /users` as `createUserDocument` reads it. A field of
type `Option _` is `none` when the property is absent; for
`email_verified_at` the outer option is `hasOwnProperty` and the inner
option is a JS `null`/empty value. -/
structure CreateUserPayload where
  email : String
  password : String
  storage_all : Option Int
  storage_used : Option Int
  role : Option String
  deleted : Option Bool
  email_verified : Option Bool
  email_verified_at : Option (Option String)

/-- `createUserDocument(payload)` (users.js lines 376-434). `newId` stands
for the id Mongo assigns at insert, `timestamp` for `toChineseIsoString()`
at the time of the call and `defaultExpiry` for the 7-days-from-now
expiry string. -/
def createUserDocument (payload : CreateUserPayload) (jd : JsDate)
    (newId : Nat) (timestamp defaultExpiry : String) : Except Nat User :=
  match normalizeEmail payload.email with
  | .error e => .error e
  | .ok email =>
  match parsePassword payload.password with
  | .error e => .error e
  | .ok password =>
  match parseNumberField (payload.storage_all.getD 0) with
  | .error e => .error e
  | .ok storageAll =>
  match parseNumberField (payload.storage_used.getD 0) with
  | .error e => .error e
  | .ok storageUsed =>
  let role :=
    match payload.role with
    | some r => if jsTrim r ≠ "" then jsTrim r else "standard"
    | none => "standard"
  match enforceStorageInvariant storageAll storageUsed with
  | .error e => .error e
  | .ok _ =>
  let emailVerified := parseBooleanField payload.email_verified false
  match (if emailVerified then
      (match payload.email_verified_at with
       | some v => parseNullableDateField jd v
       | none => .ok none)
    else .ok (none : Option String)) with
  | .error e => .error e
  | .ok parsedAt =>
  let emailVerifiedAt :=
    if emailVerified then some (parsedAt.getD timestamp) else none
  .ok
    { id := newId
      email := email
      password := password
      storage_all := storageAll
      storage_used := storageUsed
      storage_expired_at := some defaultExpiry
      deleted := parseBooleanField payload.deleted false
      role := role
      created_at := timestamp
      updated_at := timestamp
      token := none
      last_login_at := none
      email_verified := emailVerified
      email_verified_at := if emailVerified then emailVerifiedAt else none }

/-- Payload of `PUT /users/:id` as `buildUpdateDocument` reads it. Outer
options are `hasOwnProperty`; for `deleted` the inner option is whether
the value is boolean-typed, for `storage_expired_at` the inner option is
a JS `null`/empty value. -/
structure UpdateUserPayload where
  email : Option String
  password : Option String
  storage_all : Option Int
  storage_used : Option Int
  storage_expired_at : Option (Option String)
  deleted : Option (Option Bool)
  role : Option String

/-- The `$set` document `buildUpdateDocument` produces. -/
structure UserUpdates where
  email : Option String
  password : Option String
  storage_all : Option Int
  storage_used : Option Int
  storage_expired_at : Option (Option String)
  deleted : Option Bool
  role : Option String
  updated_at : String
  deriving Repr, DecidableEq

/-- `buildUpdateDocument(payload, current)` (users.js lines 436-489):
validate each present field, check the storage invariant on the merged
storage numbers, reject an all-absent payload, and stamp `updated_at`. -/
def buildUpdateDocument (payload : UpdateUserPayload) (current : User)
    (jd : JsDate) (timestamp : String) : Except Nat UserUpdates :=
  match (match payload.email with
         | some v => (normalizeEmail v).map some
         | none => .ok none) with
  | .error e => .error e
  | .ok email =>
  match (match payload.password with
         | some v => (parsePassword v).map some
         | none => .ok none) with
  | .error e => .error e
  | .ok password =>
  match (match payload.storage_all with
         | some v => (parseNumberField v).map some
         | none => .ok none) with
  | .error e => .error e
  | .ok storageAll =>
  match (match payload.storage_used with
         | some v => (parseNumberField v).map some
         | none => .ok none) with
  | .error e => .error e
  | .ok storageUsed =>
  let nextStorageAll := storageAll.getD current.storage_all
  let nextStorageUsed := storageUsed.getD current.storage_used
  match enforceStorageInvariant nextStorageAll nextStorageUsed with
  | .error e => .error e
  | .ok _ =>
  match (match payload.storage_expired_at with
         | some v => (parseNullableDateField jd v).map some
         | none => .ok none) with
  | .error e => .error e
  | .ok storageExpiredAt =>
  let deleted :=
    match payload.deleted with
    | some v => some (parseBooleanField v current.deleted)
    | none => none
  match ((match payload.role with
         | some r =>
             if jsTrim r = "" then .error 400 else .ok (some (jsTrim r))
         | none => .ok none) : Except Nat (Option String)) with
  | .error e => .error e
  | .ok role =>
  if email = none ∧ password = none ∧ storageAll = none ∧
      storageUsed = none ∧ storageExpiredAt = none ∧ deleted = none ∧
      role = none then
    .error 400
  else
    .ok
      { email := email
        password := password
        storage_all := storageAll
        storage_used := storageUsed
        storage_expired_at := storageExpiredAt
        deleted := deleted
        role := role
        updated_at := timestamp }

/-- Mongo `$set` of a `buildUpdateDocument` result on a user document. -/
def applyUserUpdates (u : User) (upd : UserUpdates) : User :=
  { u with
    email := upd.email.getD u.email
    password := upd.password.getD u.password
    storage_all := upd.storage_all.getD u.storage_all
    storage_used := upd.storage_used.getD u.storage_used
    storage_expired_at := upd.storage_expired_at.getD u.storage_expired_at
    deleted := upd.deleted.getD u.deleted
    role := upd.role.getD u.role
    updated_at := upd.updated_at }

/-- The `$set` of the `POST /users/register` confirmation route (users.js
lines 819-828): mark the email verified. -/
def registerVerifySet (u : User) (verifyTimestamp : String) : User :=
  { u with
    email_verified := true
    email_verified_at := some verifyTimestamp }

/-! ## Storage expiration (users.js lines 533-591) -/

/-- `applyStorageExpiration(doc)`: `nowCn` is the value of
`new Date(toChineseIsoString())`, i.e. the current time shifted by the
China offset; a falsy `storage_expired_at` (absent or empty) and an
unparsable one leave the document alone; an expiry at or before `nowCn`
zeroes the storage fields unless they are already both zero. -/
def applyStorageExpiration (jd : JsDate) (nowCn : Int) (doc : User) :
    User × Bool :=
  match doc.storage_expired_at with
  | none => (doc, false)
  | some s =>
      if s = "" then (doc, false)
      else
        match jd.parse s with
        | none => (doc, false)
        | some t =>
            if t ≤ nowCn then
              if doc.storage_all = 0 ∧ doc.storage_used = 0 then
                (doc, false)
              else
                ({ doc with storage_all := 0, storage_used := 0 }, true)
            else (doc, false)

/-- `refreshStorageIfExpired(doc)`: persist the zeroed storage fields
with a fresh `updated_at` when the expiration step fired, otherwise leave
both the store and the document untouched. `timestamp` stands for
`toChineseIsoString()` at write time. -/
def refreshStorageIfExpired (db : Db) (doc : User) (jd : JsDate)
    (nowCn : Int) (timestamp : String) : Db × User :=
  let r := applyStorageExpiration jd nowCn doc
  if !r.2 then (db, r.1)
  else
    let upd := updateFirst (fun u => u.id == doc.id)
      (fun u =>
        { u with
          storage_all := r.1.storage_all
          storage_used := r.1.storage_used
          updated_at := timestamp })
      db.users
    ({ db with users := upd.1 }, { r.1 with updated_at := timestamp })

/-! ## User routes the claims read (users.js lines 593-649, 847-863) -/

/-- `GET /users/:id` after authentication: validate the id, check
self-or-admin access, fetch, refresh expired storage, respond with the
refreshed document. -/
def getUserById (db : Db) (authUser : User) (idRaw : Option Nat)
    (jd : JsDate) (nowCn : Int) (timestamp : String) :
    Db × Except Nat User :=
  match idRaw with
  | none => (db, .error 400)
  | some uid =>
      if !isAdmin authUser && authUser.id != uid then (db, .error 403)
      else
        match db.users.find? (fun u => u.id == uid) with
        | none => (db, .error 404)
        | some user =>
            let r := refreshStorageIfExpired db user jd nowCn timestamp
            (r.1, .ok r.2)

/-- `GET /users` after authentication: the admin branch lists users
(order by `created_at` not modelled); the non-admin branch re-reads the
caller's document, refreshes expired storage, and responds with the
one-element list. -/
def getUsers (db : Db) (authUser : User) (includeDeleted : Bool)
    (jd : JsDate) (nowCn : Int) (timestamp : String) :
    Db × Except Nat (List User) :=
  if isAdmin authUser then
    (db, .ok (db.users.filter (fun u => includeDeleted || !u.deleted)))
  else
    match db.users.find? (fun u => u.id == authUser.id) with
    | none => (db, .error 404)
    | some current =>
        let r := refreshStorageIfExpired db current jd nowCn timestamp
        (r.1, .ok [r.2])

/-- `POST /users/login`: authenticate by email and password, refresh
expired storage, record `last_login_at`, persist a fresh auth token, and
respond with the document carrying the new `last_login_at` plus the
token. `tokenOf` stands for `jwt.sign` on the document's payload. -/
def login (db : Db) (emailRaw pwRaw : String) (jd : JsDate) (nowCn : Int)
    (timestamp : String) (tokenOf : User → String) :
    Db × Except Nat (User × String) :=
  match normalizeEmail emailRaw with
  | .error e => (db, .error e)
  | .ok email =>
      match parsePassword pwRaw with
      | .error e => (db, .error e)
      | .ok pw =>
          match db.users.find? (fun u => u.email == email) with
          | none => (db, .error 401)
          | some user =>
              if user.deleted || user.password ≠ pw then (db, .error 401)
              else
                let r := refreshStorageIfExpired db user jd nowCn timestamp
                let upd1 := updateFirst (fun u => u.id == r.2.id)
                  (fun u => { u with last_login_at := some timestamp })
                  r.1.users
                let db2 : Db := { r.1 with users := upd1.1 }
                let userWithLastLogin :=
                  { r.2 with last_login_at := some timestamp }
                let token := tokenOf userWithLastLogin
                if token = "" then (db2, .error 500)
                else
                  let upd2 := updateFirst
                    (fun u => u.id == userWithLastLogin.id)
                    (fun u => { u with token := some token }) db2.users
                  if upd2.2 = none then (db2, .error 404)
                  else
                    ({ db2 with users := upd2.1 },
                     .ok (userWithLastLogin, token))

/-! ## Gift-card redemption (giftCards router lines 111-261) -/

/-- `buildGiftCardDocument(payload, cardNumber)` storage/value checks:
`parsePositiveNumber` rejects non-positive numbers. -/
def parsePositiveNumber (value : Int) : Except Nat Int :=
  if value ≤ 0 then .error 400 else .ok value

/-- `buildGiftCardDocument` (giftCards router lines 111-127). -/
def buildGiftCardDocument (storageRaw valueRaw : Int)
    (metadata : List (String × String)) (cardNumber : String)
    (newId : Nat) (timestamp : String) : Except Nat GiftCard := do
  let storage ← parsePositiveNumber storageRaw
  let value ← parsePositiveNumber valueRaw
  pure
    { id := newId
      card_number := cardNumber
      storage := storage
      value := value
      used := false
      used_by := none
      metadata := metadata
      created_at := timestamp
      updated_at := timestamp }

/-- The `$set` of the redeem route's gift-card `findOneAndUpdate`
(giftCards router lines 187-200). The `used: true` assignment is
commented out in the source, so only `used_by` and `updated_at` change. -/
def claimGiftCardSet (userId : Nat) (email : String) (nowIsoCn : String)
    (c : GiftCard) : GiftCard :=
  { c with
    used_by := some { user_id := userId, email := email }
    updated_at := nowIsoCn }

/-- The user `$set` of the redeem route (giftCards router lines 235-245):
recompute `storage_all` as `giftCardResult.storage + user.storage_all -
user.storage_used` and stamp the new expiry. -/
def creditUserSet (updatedStorageAll : Int) (storageExpiredAt nowIso : String)
    (u : User) : User :=
  { u with
    storage_all := updatedStorageAll
    storage_expired_at := some storageExpiredAt
    updated_at := nowIso }

/-- The success payload of `POST /redeem`. -/
structure RedeemSuccess where
  card : GiftCard
  redeem : RedeemRecord
  user : Option User
  deriving Repr, DecidableEq

/-- `POST /redeem` (giftCards router lines 171-261). `userIdRaw` is
`none` for an invalid/absent `user_id`; `nowIsoCn` stands for the
`toChineseIsoString()` calls during the request, `storageExpiredAt` for
`computeStorageExpiryDate()`, and `redeemId` for the inserted redeem
record's id. The store is threaded through every database call and
returned alongside the outcome, so failures keep whatever was written
before the throw. -/
def redeem (db : Db) (userIdRaw : Option Nat) (cardNumberRaw : String)
    (nowIsoCn storageExpiredAt : String) (redeemId : Nat) :
    Db × Except Nat RedeemSuccess :=
  match userIdRaw with
  | none => (db, .error 400)
  | some userId =>
      match normalizeCardNumber cardNumberRaw with
      | .error e => (db, .error e)
      | .ok cardNumber =>
          match db.users.find? (fun u => u.id == userId) with
          | none => (db, .error 404)
          | some user =>
              let upd := updateFirst
                (fun c => c.card_number == cardNumber && c.used == false)
                (claimGiftCardSet userId user.email nowIsoCn)
                db.giftCards
              let db1 : Db := { db with giftCards := upd.1 }
              match upd.2 with
              | none =>
                  if (db1.giftCards.find? (fun c =>
                        c.card_number == cardNumber && c.used == true)).isSome
                  then (db1, .error 409)
                  else (db1, .error 404)
              | some giftCardResult =>
                  let redeemDoc : RedeemRecord :=
                    { id := redeemId
                      card_number := cardNumber
                      gift_card_id := giftCardResult.id
                      user_id := userId
                      user_email := user.email
                      user_snapshot :=
                        { email := user.email
                          storage_all := user.storage_all
                          storage_used := user.storage_used }
                      storage_allocated := giftCardResult.storage
                      storage_expired_at := storageExpiredAt
                      redeemed_at := nowIsoCn }
                  let db2 : Db :=
                    { db1 with userRedeems := db1.userRedeems ++ [redeemDoc] }
                  let updatedStorageAll :=
                    giftCardResult.storage + user.storage_all -
                      user.storage_used
                  let upd2 := updateFirst (fun u => u.id == userId)
                    (creditUserSet updatedStorageAll storageExpiredAt nowIsoCn)
                    db2.users
                  let db3 : Db := { db2 with users := upd2.1 }
                  (db3,
                   .ok { card := giftCardResult, redeem := redeemDoc,
                         user := upd2.2 })

/-! ## Spec-side definitions for the header-forwarding claim -/

/-- Spec-side filter, following the claim's words: the incoming headers
minus the hop-by-hop headers (matched case-insensitively) and minus the
headers with empty values. -/
def claimFilteredHeaders (incoming : Headers) : Headers :=
  incoming.filter fun kv =>
    !(hopByHopHeaders.contains (jsToLower kv.1)) && kv.2 != ""

/-- The incoming request carries an authorization header (any case). -/
def claimCarriesAuthorization (incoming : Headers) : Bool :=
  incoming.any fun kv => jsToLower kv.1 == "authorization"

/-- The incoming request carries an authorization header (any case) with
a non-empty value. -/
def claimCarriesNonEmptyAuthorization (incoming : Headers) : Bool :=
  incoming.any fun kv => jsToLower kv.1 == "authorization" && kv.2 != ""

/-- The claim exactly as stated: filtered headers, plus an injected
authorization header if and only if injection is enabled, a default token
is configured, and the incoming request carries no authorization
header. -/
def specForwardHeadersAsStated (incoming : Headers) (enabled : Bool)
    (tok : String) : Headers :=
  claimFilteredHeaders incoming ++
    (if enabled && tok != "" && !claimCarriesAuthorization incoming then
      [("authorization", normalizeToken tok)]
    else [])

/-- The amended claim: injection additionally happens when the only
authorization headers the request carries have empty values. -/
def specForwardHeadersAmended (incoming : Headers) (enabled : Bool)
    (tok : String) : Headers :=
  claimFilteredHeaders incoming ++
    (if enabled && tok != "" &&
        !claimCarriesNonEmptyAuthorization incoming then
      [("authorization", normalizeToken tok)]
    else [])

/-- The zeroed-and-stamped user document the storage-expiration refresh
persists. -/
def zeroedStorage (doc : User) (ts : String) : User :=
  { doc with storage_all := 0, storage_used := 0, updated_at := ts }

/-! ## Concrete stores used by counterexamples and witnesses -/

/-- A user document with the given id and storage numbers and neutral
remaining fields. -/
def mkUser (id : Nat) (email : String) (all used : Int) : User :=
  { id := id
    email := email
    password := "secret"
    storage_all := all
    storage_used := used
    storage_expired_at := none
    deleted := false
    role := "standard"
    created_at := "c"
    updated_at := "c"
    token := none
    last_login_at := none
    email_verified := false
    email_verified_at := none }

/-- An unclaimed gift card with the given storage amount. -/
def mkCard (id : Nat) (cardNumber : String) (storage : Int) : GiftCard :=
  { id := id
    card_number := cardNumber
    storage := storage
    value := 1
    used := false
    used_by := none
    metadata := []
    created_at := "c"
    updated_at := "c" }

/-- Store for the double-redemption run: two users and one card. -/
def doubleRedeemDb : Db :=
  { users := [mkUser 1 "a@x.com" 10 0, mkUser 2 "b@x.com" 0 0]
    giftCards := [mkCard 7 "AAAAA-AAAAA-AAAAA" 7]
    userRedeems := [] }

/-- Store for the balance-recomputation counterexample: one user with
non-zero `storage_used`. -/
def creditDb : Db :=
  { users := [mkUser 1 "a@x.com" 10 5]
    giftCards := [mkCard 7 "AAAAA-AAAAA-AAAAA" 7]
    userRedeems := [] }

/-- Store for the invariant counterexample: a fully-used quota. -/
def invariantDb : Db :=
  { users := [mkUser 1 "a@x.com" 10 10]
    giftCards := [mkCard 7 "AAAAA-AAAAA-AAAAA" 1]
    userRedeems := [] }

/-- Date oracle for the expiration runs: only "2020" parses (to 100). -/
def jdFixed : JsDate :=
  { parse := fun s => if s = "2020" then some 100 else none
    iso := fun _ => "iso" }

/-- A user whose quota expired at time 100. -/
def expiredUser : User :=
  { mkUser 1 "a@x.com" 10 5 with storage_expired_at := some "2020" }

/-- An expired user whose storage fields are already zero. -/
def zeroedExpiredUser : User :=
  { mkUser 3 "c@x.com" 0 0 with storage_expired_at := some "2020" }

/-- Store holding just the expired user. -/
def expiredDb : Db :=
  { users := [expiredUser], giftCards := [], userRedeems := [] }

/-! ## Helper lemmas -/

theorem any_congr_mem {p q : α → Bool} (l : List α)
    (h : ∀ x ∈ l, p x = q x) : l.any p = l.any q := by
  induction l with
  | nil => rfl
  | cons a tl ih =>
      simp only [List.any_cons, h a (List.mem_cons_self a tl),
        ih fun x hx => h x (List.mem_cons_of_mem a hx)]

theorem updateFirst_snd (p : α → Bool) (f : α → α) (l : List α) :
    (updateFirst p f l).2 = (l.find? p).map f := by
  induction l with
  | nil => rfl
  | cons x xs ih =>
      cases hx : p x with
      | true => simp [updateFirst, List.find?_cons_of_pos _ hx, hx]
      | false =>
          have hx' : ¬p x = true := by simp [hx]
          rw [List.find?_cons_of_neg _ hx']
          simp only [updateFirst, hx, Bool.false_eq_true, if_false]
          exact ih

theorem updateFirst_fst_of_none (p : α → Bool) (f : α → α) (l : List α)
    (h : l.find? p = none) : (updateFirst p f l).1 = l := by
  induction l with
  | nil => rfl
  | cons x xs ih =>
      by_cases hx : p x
      · rw [List.find?_cons_of_pos _ hx] at h
        exact absurd h (by simp)
      · rw [List.find?_cons_of_neg _ (by simp [hx])] at h
        simp only [updateFirst, hx, Bool.false_eq_true, if_false]
        rw [ih h]

theorem find?_updateFirst_fst (p : α → Bool) (f : α → α) (l : List α)
    (hpf : ∀ x, p x = true → p (f x) = true) :
    (updateFirst p f l).1.find? p = (l.find? p).map f := by
  induction l with
  | nil => rfl
  | cons x xs ih =>
      by_cases hx : p x
      · simp only [updateFirst, hx, if_true]
        rw [List.find?_cons_of_pos _ (hpf x hx),
          List.find?_cons_of_pos _ hx]
        rfl
      · simp only [updateFirst, hx, Bool.false_eq_true, if_false]
        rw [List.find?_cons_of_neg _ (by simp [hx]),
          List.find?_cons_of_neg _ (by simp [hx]), ih]

/-! ## Claim C1: redemption never marks the card claimed (code bug) -/

/-- C1: evaluating `POST /redeem` at a concrete store shows the bug: the
first redemption succeeds, yet every gift card in the resulting store
still has `used = false` (the route's `$set` has `used: true` commented
out), and a second redemption of the very same card — by another user —
succeeds again instead of failing with 409. -/
theorem redeem_second_attempt_succeeds :
    ((redeem doubleRedeemDb (some 1) "AAAAA-AAAAA-AAAAA" "t1" "e1"
        50).2.toOption.isSome = true) ∧
    (((redeem doubleRedeemDb (some 1) "AAAAA-AAAAA-AAAAA" "t1" "e1"
        50).1.giftCards.all fun c => c.used == false) = true) ∧
    ((redeem (redeem doubleRedeemDb (some 1) "AAAAA-AAAAA-AAAAA" "t1" "e1"
          50).1
        (some 2) "AAAAA-AAAAA-AAAAA" "t2" "e2" 51).2.toOption.isSome =
      true) := by
  decide

/-! ## Claim C4: forwarded headers -/

theorem claimFiltered_any_auth (incoming : Headers)
    (h : ∀ kv ∈ incoming, jsToLower kv.1 = kv.1) :
    ((claimFilteredHeaders incoming).any fun kv =>
        kv.1 == "authorization") =
      claimCarriesNonEmptyAuthorization incoming := by
  unfold claimFilteredHeaders claimCarriesNonEmptyAuthorization
  rw [List.any_filter]
  apply any_congr_mem
  intro kv hkv
  obtain ⟨k, v⟩ := kv
  have hk : jsToLower k = k := h (k, v) hkv
  show (((!(hopByHopHeaders.contains (jsToLower k))) && (v != "")) &&
      (k == "authorization")) =
    ((jsToLower k == "authorization") && (v != ""))
  rw [hk]
  by_cases hauth : k = "authorization"
  · subst hauth
    have hhop : hopByHopHeaders.contains "authorization" = false := by
      decide
    rw [hhop]
    simp
  · have hne : (k == "authorization") = false := by
      simp [hauth]
    rw [hne]
    simp

theorem filter_keep_eq_claimFiltered (incoming : Headers) :
    incoming.filter keepForwardHeader = claimFilteredHeaders incoming := by
  unfold claimFilteredHeaders
  apply List.filter_congr
  intro x _
  unfold keepForwardHeader
  exact Bool.and_comm _ _

/-- C4 counterexample: for the incoming header map carrying an
`authorization` header with an empty value (with token injection enabled
and a default token configured), the code still injects the default
token, while the claim as stated forbids injection because the request
carries an authorization header. -/
theorem forward_headers_claim_fails_on_empty_auth :
    buildForwardHeaders [("authorization", "")] true "tok" ≠
      specForwardHeadersAsStated [("authorization", "")] true "tok" := by
  decide

/-- C4 (amended): for every incoming header map whose names are
lower-case (Node lower-cases incoming request header names), the
forwarded headers are exactly the incoming headers minus hop-by-hop
headers and empty-valued headers, with the configured default bearer
token injected as `authorization` if and only if injection is enabled, a
default token is configured, and the request carries no authorization
header with a non-empty value; all other header values pass through
unchanged. -/
theorem buildForwardHeaders_spec (incoming : Headers) (enabled : Bool)
    (tok : String)
    (h : ∀ kv ∈ incoming, jsToLower kv.1 = kv.1) :
    buildForwardHeaders incoming enabled tok =
      specForwardHeadersAmended incoming enabled tok := by
  unfold buildForwardHeaders specForwardHeadersAmended
  simp only [filter_keep_eq_claimFiltered,
    claimFiltered_any_auth incoming h]
  by_cases hc :
      (enabled && tok != "" &&
        !claimCarriesNonEmptyAuthorization incoming) = true
  · simp [hc]
  · simp [hc]

/-- C4 witness: a concrete run of the amended theorem. -/
theorem buildForwardHeaders_spec_witness :
    buildForwardHeaders
        [("accept", "application/json"), ("connection", "keep-alive")]
        true "tok" =
      specForwardHeadersAmended
        [("accept", "application/json"), ("connection", "keep-alive")]
        true "tok" :=
  buildForwardHeaders_spec
    [("accept", "application/json"), ("connection", "keep-alive")]
    true "tok" (by decide)

/-! ## Claim C5: forwarded method, query and body -/

/-- C5 counterexample: for a GET request carrying a non-empty body, the
upstream request carries no body at all, so the forwarded body does not
equal the client's body. -/
theorem forwarded_body_differs_for_get :
    (buildAxiosRequest
        { method := "GET", headers := [], query := [("q", "1")],
          body := some [("a", "b")] } true "").data ≠
      (some [("a", "b")] : Option (List (String × String))) := by
  decide

/-- C5 (amended): the upstream method always equals the client's method
and the upstream query always equals the client's query; the body is
forwarded unchanged exactly when the method (case-insensitively) is
neither GET nor HEAD and the body object is non-empty, and is dropped
otherwise. -/
theorem buildAxiosRequest_spec (req : ClientRequest) (allow : Bool)
    (tok : String) :
    (buildAxiosRequest req allow tok).method = req.method ∧
    (buildAxiosRequest req allow tok).params = req.query ∧
    (buildAxiosRequest req allow tok).data =
      (if (jsToLower req.method = "get" ∨ jsToLower req.method = "head") ∨
          req.body.getD [] = [] then
        none
      else req.body) := by
  refine ⟨rfl, rfl, ?_⟩
  unfold buildAxiosRequest shouldSendBody methodsWithoutBody
  cases hb : req.body with
  | none => simp
  | some kvs =>
      by_cases hget : jsToLower req.method = "get"
      · simp [hget]
      · by_cases hhead : jsToLower req.method = "head"
        · simp [hhead]
        · by_cases hnil : kvs = []
          · subst hnil
            simp [hget, hhead]
          · have : kvs.length > 0 := List.length_pos.mpr hnil
            simp [hget, hhead, hnil, this]

/-! ## Claim C6: upstream failure translation -/

/-- C6: the catch block relays any attached upstream response unchanged;
a response-less `ECONNABORTED` failure becomes a 504 with message
"Upstream request timed out"; any other response-less failure becomes a
502 whose message contains the configured endpoint summary (and is the
bare error message when no summary is configured). -/
theorem translateProxyError_spec (summary : String) (e : AxiosError) :
    (∀ s d, e.response = some (s, d) →
      translateProxyError summary e = .relay s d) ∧
    (e.response = none → e.code = some "ECONNABORTED" →
      translateProxyError summary e =
        .httpError 504 "Upstream request timed out") ∧
    (e.response = none → e.code ≠ some "ECONNABORTED" →
      ∃ msg, translateProxyError summary e = .httpError 502 msg ∧
        (summary ≠ "" → summary.data <+: msg.data) ∧
        (summary = "" → msg = e.message)) := by
  refine ⟨?_, ?_, ?_⟩
  · intro s d hr
    unfold translateProxyError
    rw [hr]
  · intro hr hc
    unfold translateProxyError
    rw [hr]
    simp [hc]
  · intro hr hc
    unfold translateProxyError
    rw [hr]
    simp only [hc, if_false]
    by_cases hs : summary = ""
    · subst hs
      exact ⟨e.message, by simp, by simp, fun _ => rfl⟩
    · refine ⟨summary ++ " failed: " ++ e.message, by simp [hs], ?_,
        fun h => absurd h hs⟩
      intro _
      refine ⟨(" failed: " ++ e.message).data, ?_⟩
      simp [String.data_append]

/-- C6 witness: concrete instances of all three translation cases. -/
theorem translateProxyError_spec_witness :
    translateProxyError "Get user infos"
        { response := some (404, "missing"), code := none,
          message := "m" } = .relay 404 "missing" ∧
    translateProxyError "Get user infos"
        { response := none, code := some "ECONNABORTED",
          message := "m" } =
      .httpError 504 "Upstream request timed out" ∧
    ∃ msg, translateProxyError "Get user infos"
        { response := none, code := none, message := "boom" } =
          .httpError 502 msg ∧
        ("Get user infos" ≠ "" → "Get user infos".data <+: msg.data) ∧
        ("Get user infos" = "" → msg = "boom") := by
  refine ⟨?_, ?_, ?_⟩
  · exact (translateProxyError_spec "Get user infos" _).1 404 "missing" rfl
  · exact (translateProxyError_spec "Get user infos" _).2.1 rfl rfl
  · exact (translateProxyError_spec "Get user infos" _).2.2 rfl (by simp)

/-! ## Claim C7: path templating -/

theorem renderTemplateChars_eq_spec (params : String → Option String)
    (l : List Char) :
    renderTemplateChars params l = specRenderTemplate params l := by
  induction l using renderTemplateChars.induct params with
  | case1 =>
      simp only [renderTemplateChars, specRenderTemplate, tokenizeTemplate,
        List.flatMap_nil]
  | case2 c rest hc ih =>
      simp only [renderTemplateChars, specRenderTemplate, tokenizeTemplate,
        hc, if_true, List.flatMap_cons, renderTok]
      rw [ih]
      rfl
  | case3 c rest hc ih =>
      simp only [renderTemplateChars, specRenderTemplate, tokenizeTemplate,
        hc, Bool.false_eq_true, if_false, List.flatMap_cons, renderTok]
      rw [ih]
      rfl

/-- C7: for every parameter map, a missing template and an empty string
template yield the empty string, a function template is applied to the
parameters, and a string template renders to the template with every
`:name` placeholder (name over letters, digits, underscore) whose
parameter is defined replaced by the `encodeURIComponent`-encoded value,
placeholders with undefined parameters left verbatim, and every other
character copied unchanged. -/
theorem buildUpstreamPath_spec (params : String → Option String) :
    buildUpstreamPath .undef params = "" ∧
    buildUpstreamPath (.str "") params = "" ∧
    (∀ f, buildUpstreamPath (.fn f) params = f params) ∧
    ∀ s, buildUpstreamPath (.str s) params =
      String.mk (specRenderTemplate params s.data) := by
  refine ⟨rfl, rfl, fun f => rfl, fun s => ?_⟩
  by_cases hs : s = ""
  · subst hs
    have hnil : specRenderTemplate params ("" : String).data = [] := by
      simp [specRenderTemplate, tokenizeTemplate]
    rw [hnil]
    rfl
  · show (if s = "" then ""
        else String.mk (renderTemplateChars params s.data)) =
      String.mk (specRenderTemplate params s.data)
    rw [if_neg hs, renderTemplateChars_eq_spec]

/-! ## Claim C9: card-number normalization round-trips -/

theorem char_toNat_ofNat (n : Nat) (h : n < 55296) :
    (Char.ofNat n).toNat = n := by
  unfold Char.ofNat
  rw [dif_pos (Or.inl h)]
  rfl

theorem alnum_of_cardBody (c : Char) (h : isCardBodyChar c = true) :
    isAsciiAlnumChar c = true := by
  simp only [isCardBodyChar, isAsciiAlnumChar, isAsciiDigitChar,
    isAsciiUpperChar, isAsciiLowerChar, Bool.or_eq_true, Bool.and_eq_true,
    decide_eq_true_eq] at h ⊢
  omega

theorem asciiToUpper_eq_self_of_cardBody (c : Char)
    (h : isCardBodyChar c = true) : asciiToUpper c = c := by
  unfold asciiToUpper
  rw [if_neg]
  simp only [isCardBodyChar, isAsciiUpperChar, isAsciiDigitChar,
    isAsciiLowerChar, Bool.or_eq_true, Bool.and_eq_true,
    decide_eq_true_eq] at h ⊢
  omega

theorem cardBody_asciiToUpper_of_alnum (c : Char)
    (h : isAsciiAlnumChar c = true) :
    isCardBodyChar (asciiToUpper c) = true := by
  simp only [isAsciiAlnumChar, isAsciiDigitChar, isAsciiUpperChar,
    isAsciiLowerChar, Bool.or_eq_true, Bool.and_eq_true,
    decide_eq_true_eq] at h
  unfold asciiToUpper
  by_cases hl : isAsciiLowerChar c = true
  · rw [if_pos hl]
    simp only [isAsciiLowerChar, Bool.and_eq_true, decide_eq_true_eq] at hl
    have hv : (Char.ofNat (c.toNat - 32)).toNat = c.toNat - 32 :=
      char_toNat_ofNat _ (by omega)
    simp only [isCardBodyChar, isAsciiUpperChar, isAsciiDigitChar,
      Bool.or_eq_true, Bool.and_eq_true, decide_eq_true_eq, hv]
    omega
  · rw [if_neg hl]
    simp only [isAsciiLowerChar, Bool.and_eq_true, decide_eq_true_eq] at hl
    simp only [isCardBodyChar, isAsciiUpperChar, isAsciiDigitChar,
      Bool.or_eq_true, Bool.and_eq_true, decide_eq_true_eq]
    omega

theorem alnum_not_whitespace (c : Char) (h : isAsciiAlnumChar c = true) :
    c.isWhitespace = false := by
  cases hw : c.isWhitespace
  · rfl
  · exfalso
    simp only [Char.isWhitespace, Bool.or_eq_true, decide_eq_true_eq]
      at hw
    rcases hw with ((h1 | h1) | h1) | h1 <;> subst h1 <;>
      exact absurd h (by decide)

theorem whitespace_of_jsTrim_empty (s : String) (h : jsTrim s = "") :
    ∀ c ∈ s.data, c.isWhitespace = true := by
  intro c hc
  have hl : ((s.data.dropWhile Char.isWhitespace).reverse.dropWhile
      Char.isWhitespace).reverse = [] := congrArg String.data h
  have h2 : (s.data.dropWhile Char.isWhitespace).reverse.dropWhile
      Char.isWhitespace = [] := List.reverse_eq_nil_iff.mp hl
  have h3 : ∀ x ∈ s.data.dropWhile Char.isWhitespace,
      x.isWhitespace = true := fun x hx =>
    List.dropWhile_eq_nil_iff.mp h2 x (List.mem_reverse.mpr hx)
  have hc' : c ∈ s.data.takeWhile Char.isWhitespace ++
      s.data.dropWhile Char.isWhitespace := by
    rw [List.takeWhile_append_dropWhile]
    exact hc
  rcases List.mem_append.mp hc' with h5 | h5
  · exact List.mem_takeWhile_imp h5
  · exact h3 c h5

theorem compact_all_cardBody (value : String) :
    (compactCardInput value).all isCardBodyChar = true := by
  rw [List.all_eq_true]
  intro x hx
  rcases List.mem_map.mp hx with ⟨c, hc, rfl⟩
  exact cardBody_asciiToUpper_of_alnum c (List.mem_filter.mp hc).2

theorem jsTrim_ne_empty_of_compact_ne_nil (value : String)
    (h : compactCardInput value ≠ []) : jsTrim value ≠ "" := by
  intro htrim
  rcases List.exists_mem_of_ne_nil _ h with ⟨x, hx⟩
  rcases List.mem_map.mp hx with ⟨c, hc, _⟩
  have halnum := (List.mem_filter.mp hc).2
  have hmem := (List.mem_filter.mp hc).1
  have := whitespace_of_jsTrim_empty value htrim c hmem
  rw [alnum_not_whitespace c halnum] at this
  exact Bool.false_ne_true this

theorem normalizeCardNumber_of_compact (value : String)
    (h15 : (compactCardInput value).length = RAW_KEY_LENGTH) :
    normalizeCardNumber value =
      .ok (formatKey (String.mk (compactCardInput value))) := by
  have hne : compactCardInput value ≠ [] := by
    intro hnil
    rw [hnil] at h15
    exact absurd h15 (by decide)
  unfold normalizeCardNumber
  rw [if_neg (jsTrim_ne_empty_of_compact_ne_nil value hne)]
  have hcond : (decide ((compactCardInput value).length ≠ RAW_KEY_LENGTH) ||
      !cardBodyPattern (compactCardInput value)) = false := by
    have hpat : cardBodyPattern (compactCardInput value) = true := by
      unfold cardBodyPattern
      rw [compact_all_cardBody]
      simp [List.isEmpty_iff, hne]
    simp [h15, hpat]
  simp only [hcond, Bool.false_eq_true, if_false]

theorem compact_formatKey (raw : List Char)
    (hall : raw.all isCardBodyChar = true) :
    compactCardInput (formatKey (String.mk raw)) = raw := by
  have hmem : ∀ x ∈ raw, isCardBodyChar x = true := List.all_eq_true.mp hall
  have hf : ∀ part : List Char, (∀ x ∈ part, x ∈ raw) →
      (part.filter isAsciiAlnumChar).map asciiToUpper = part := by
    intro part hsub
    rw [List.filter_eq_self.mpr
      (fun a ha => alnum_of_cardBody a (hmem a (hsub a ha)))]
    rw [List.map_congr_left
      (fun a ha => asciiToUpper_eq_self_of_cardBody a (hmem a (hsub a ha)))]
    exact List.map_id part
  unfold compactCardInput formatKey
  simp only [String.data_append]
  show ((raw.take 5 ++ ['-'] ++ (raw.drop 5).take 5 ++ ['-'] ++
      raw.drop 10).filter isAsciiAlnumChar).map asciiToUpper = raw
  have hdash : (['-'].filter isAsciiAlnumChar).map asciiToUpper = [] := by
    decide
  simp only [List.filter_append, List.map_append, hdash]
  rw [hf _ (fun x hx => List.mem_of_mem_take hx),
    hf _ (fun x hx => List.mem_of_mem_drop (List.mem_of_mem_take hx)),
    hf _ (fun x hx => List.mem_of_mem_drop hx)]
  simp only [List.append_nil]
  have h23 : (raw.drop 5).take 5 ++ raw.drop 10 = raw.drop 5 := by
    have hd : raw.drop 10 = (raw.drop 5).drop 5 := (List.drop_drop 5 5 raw).symm
    rw [hd, List.take_append_drop]
  rw [List.append_assoc, h23, List.take_append_drop]

theorem normalizeCardNumber_formatKey (raw : List Char)
    (h15 : raw.length = RAW_KEY_LENGTH)
    (hall : raw.all isCardBodyChar = true) :
    normalizeCardNumber (formatKey (String.mk raw)) =
      .ok (formatKey (String.mk raw)) := by
  have hc := compact_formatKey raw hall
  rw [normalizeCardNumber_of_compact _ (by rw [hc]; exact h15), hc]

theorem normalizeCardNumber_ok_inversion (value : String) (out : String)
    (h : normalizeCardNumber value = .ok out) :
    out = formatKey (String.mk (compactCardInput value)) ∧
      (compactCardInput value).length = RAW_KEY_LENGTH := by
  unfold normalizeCardNumber at h
  by_cases h1 : jsTrim value = ""
  · rw [if_pos h1] at h
    exact absurd h (by simp)
  · rw [if_neg h1] at h
    by_cases h2 : (decide ((compactCardInput value).length ≠ RAW_KEY_LENGTH)
        || !cardBodyPattern (compactCardInput value)) = true
    · rw [if_pos h2] at h
      exact absurd h (by simp)
    · rw [if_neg h2] at h
      simp only [Bool.or_eq_true, decide_eq_true_eq, Bool.not_eq_true',
        not_or] at h2
      exact ⟨(Except.ok.inj h).symm, by omega⟩

/-- C9: card-number normalization round-trips generation and is
idempotent: `formatKey` of any 15-character `[A-Z0-9]` raw string is a
fixed point of `normalizeCardNumber`; any input that compacts (stripping
non-alphanumerics and upper-casing) to exactly 15 alphanumerics is
accepted and mapped to the dashed canonical form; an accepted output is
itself accepted and returned unchanged; every card number
`createCardNumber` produces is a fixed point. -/
theorem normalizeCardNumber_roundtrip_spec :
    (∀ raw : List Char, raw.length = RAW_KEY_LENGTH →
      raw.all isCardBodyChar = true →
      normalizeCardNumber (formatKey (String.mk raw)) =
        .ok (formatKey (String.mk raw))) ∧
    (∀ value : String,
      (compactCardInput value).length = RAW_KEY_LENGTH →
      normalizeCardNumber value =
        .ok (formatKey (String.mk (compactCardInput value)))) ∧
    (∀ value out, normalizeCardNumber value = .ok out →
      normalizeCardNumber out = .ok out) ∧
    (∀ pick, normalizeCardNumber (createCardNumber pick) =
      .ok (createCardNumber pick)) := by
  refine ⟨normalizeCardNumber_formatKey, normalizeCardNumber_of_compact,
    ?_, ?_⟩
  · intro value out h
    rcases normalizeCardNumber_ok_inversion value out h with ⟨hout, h15⟩
    rw [hout]
    exact normalizeCardNumber_formatKey _ h15 (compact_all_cardBody value)
  · intro pick
    apply normalizeCardNumber_formatKey
    · simp [RAW_KEY_LENGTH]
    · rw [List.all_eq_true]
      intro x hx
      rcases List.mem_map.mp hx with ⟨i, _, rfl⟩
      have hmem : CHARSET.get (pick i) ∈ CHARSET :=
        List.get_mem CHARSET (pick i).1 (pick i).2
      have hall : CHARSET.all isCardBodyChar = true := by decide
      exact List.all_eq_true.mp hall _ hmem

/-- C9 witness: concrete runs of all four parts. -/
theorem normalizeCardNumber_roundtrip_spec_witness :
    normalizeCardNumber (formatKey (String.mk "AAAAABBBBB12345".data)) =
      .ok (formatKey (String.mk "AAAAABBBBB12345".data)) ∧
    normalizeCardNumber "aaaaa bbbbb 12345" =
      .ok (formatKey (String.mk (compactCardInput "aaaaa bbbbb 12345"))) ∧
    normalizeCardNumber "AAAAA-BBBBB-12345" = .ok "AAAAA-BBBBB-12345" ∧
    normalizeCardNumber (createCardNumber fun _ => ⟨0, by decide⟩) =
      .ok (createCardNumber fun _ => ⟨0, by decide⟩) := by
  refine ⟨normalizeCardNumber_roundtrip_spec.1 _ (by decide) (by decide),
    normalizeCardNumber_roundtrip_spec.2.1 _ (by decide),
    normalizeCardNumber_roundtrip_spec.2.2.1 "aaaaa-bbbbb-12345" _ rfl,
    normalizeCardNumber_roundtrip_spec.2.2.2 _⟩

/-! ## Redemption inversion (shared by several claims) -/

theorem redeem_ok_inversion (db : Db) (userId redeemId : Nat)
    (raw now exp : String) (db' : Db) (res : RedeemSuccess)
    (hrun : redeem db (some userId) raw now exp redeemId =
      (db', .ok res)) :
    ∃ user cardNumber,
      db.users.find? (fun u => u.id == userId) = some user ∧
      normalizeCardNumber raw = .ok cardNumber ∧
      db'.users = (updateFirst (fun u => u.id == userId)
        (creditUserSet (res.card.storage + user.storage_all -
          user.storage_used) exp now) db.users).1 := by
  unfold redeem at hrun
  split at hrun
  next heq => exact Option.noConfusion heq
  next uid heq =>
  obtain rfl : uid = userId := (Option.some.inj heq).symm
  split at hrun
  next e heq2 => exact absurd (congrArg Prod.snd hrun) (by simp)
  next cardNumber heq2 =>
  split at hrun
  next hfind => exact absurd (congrArg Prod.snd hrun) (by simp)
  next user hfind =>
  simp only [] at hrun
  split at hrun
  next hupd =>
      split at hrun <;> exact absurd (congrArg Prod.snd hrun) (by simp)
  next giftCardResult hupd =>
      refine ⟨user, cardNumber, hfind, heq2, ?_⟩
      rw [Prod.mk.injEq] at hrun
      obtain ⟨hdb, hres⟩ := hrun
      have hres' := Except.ok.inj hres
      rw [← hdb, ← hres']

theorem enforceStorageInvariant_ok (a u : Int) (x : Unit)
    (h : enforceStorageInvariant a u = .ok x) : u ≤ a := by
  unfold enforceStorageInvariant at h
  by_cases hc : u > a
  · rw [if_pos hc] at h
    exact Except.noConfusion h
  · exact le_of_not_lt hc

/-! ## Claim C2: what a successful redemption credits -/

/-- C2 counterexample: for the user with `storage_all = 10` and
`storage_used = 5` redeeming a card of storage 7, the persisted
`storage_all` is 12, not `10 + 7`. -/
theorem redeem_credit_is_not_plain_sum :
    (((redeem creditDb (some 1) "AAAAA-AAAAA-AAAAA" "t" "e" 9).1.users.map
        fun u => u.storage_all) = [12]) ∧ (12 : Int) ≠ 10 + 7 := by
  constructor
  · decide
  · decide

/-- C2 (amended): a successful `POST /redeem` leaves the user's
`storage_used` unchanged and sets their `storage_all` to
`card.storage + storage_all - storage_used` (the route's balance
recomputation), not to `storage_all + card.storage`. -/
theorem redeem_credits_balance (db : Db) (userId redeemId : Nat)
    (raw now exp : String) (user : User) (db' : Db) (res : RedeemSuccess)
    (hfind : db.users.find? (fun u => u.id == userId) = some user)
    (hrun : redeem db (some userId) raw now exp redeemId =
      (db', .ok res)) :
    ∃ u', db'.users.find? (fun u => u.id == userId) = some u' ∧
      u'.storage_all =
        res.card.storage + user.storage_all - user.storage_used ∧
      u'.storage_used = user.storage_used := by
  rcases redeem_ok_inversion db userId redeemId raw now exp db' res hrun
    with ⟨user0, n, hfind0, _, husers⟩
  rw [hfind0] at hfind
  have huser0 : user0 = user := Option.some.inj hfind
  rw [huser0] at husers
  refine ⟨creditUserSet
    (res.card.storage + user.storage_all - user.storage_used) exp now
    user, ?_, rfl, rfl⟩
  rw [husers, find?_updateFirst_fst (fun u => u.id == userId)
    (creditUserSet (res.card.storage + user.storage_all -
      user.storage_used) exp now) db.users (fun x hx => hx), hfind0]
  rw [huser0]
  rfl

/-- C2 witness: the credited user of the concrete run. -/
theorem redeem_credits_balance_witness :
    ∃ u', (redeem creditDb (some 1) "AAAAA-AAAAA-AAAAA" "t" "e"
        9).1.users.find? (fun u => u.id == 1) = some u' ∧
      u'.storage_all = (7 : Int) + 10 - 5 ∧
      u'.storage_used = (5 : Int) := by
  obtain ⟨u', h1, h2, h3⟩ :=
    redeem_credits_balance creditDb 1 9 "AAAAA-AAAAA-AAAAA" "t" "e"
      (mkUser 1 "a@x.com" 10 5) _ _ rfl rfl
  exact ⟨u', h1, h2, h3⟩

/-! ## Claim C8: a failed redemption writes nothing -/

/-- C8: whenever `POST /redeem` fails (invalid payload, unknown user,
unknown card, or claimed card), the whole store — users, gift cards and
redeem records — is exactly what it was before the request: every write
happens only after the last possible failure point, and a matchless
`findOneAndUpdate` writes nothing. -/
theorem redeem_failure_leaves_store_unchanged (db : Db)
    (userIdRaw : Option Nat) (raw now exp : String) (redeemId : Nat)
    (e : Nat)
    (h : (redeem db userIdRaw raw now exp redeemId).2 = .error e) :
    (redeem db userIdRaw raw now exp redeemId).1 = db := by
  rcases hr : redeem db userIdRaw raw now exp redeemId with ⟨db', out⟩
  rw [hr] at h
  simp only [] at h
  subst h
  show db' = db
  unfold redeem at hr
  split at hr
  next =>
      rw [Prod.mk.injEq] at hr
      exact hr.1.symm
  next uid =>
  split at hr
  next e2 heq2 =>
      rw [Prod.mk.injEq] at hr
      exact hr.1.symm
  next cardNumber heq2 =>
  split at hr
  next hfind =>
      rw [Prod.mk.injEq] at hr
      exact hr.1.symm
  next user hfind =>
  simp only [] at hr
  split at hr
  next hupd =>
      have hfound : db.giftCards.find?
          (fun c => c.card_number == cardNumber && c.used == false) =
          none := by
        have hsnd := updateFirst_snd
          (fun c => c.card_number == cardNumber && c.used == false)
          (claimGiftCardSet uid user.email now) db.giftCards
        rw [hupd] at hsnd
        exact (Option.map_eq_none.mp hsnd.symm)
      have hfst := updateFirst_fst_of_none
        (fun c => c.card_number == cardNumber && c.used == false)
        (claimGiftCardSet uid user.email now) db.giftCards hfound
      split at hr <;>
        · rw [Prod.mk.injEq] at hr
          rw [← hr.1, hfst]
  next giftCardResult hupd =>
      rw [Prod.mk.injEq] at hr
      exact absurd hr.2 (by simp)

/-- C8 witness: redeeming against an empty store fails and leaves the
empty store untouched. -/
theorem redeem_failure_leaves_store_unchanged_witness :
    (redeem { users := [], giftCards := [], userRedeems := [] }
        (some 1) "card" "t" "e" 0).1 =
      { users := [], giftCards := [], userRedeems := [] } :=
  redeem_failure_leaves_store_unchanged _ _ _ _ _ _ 400 rfl

/-! ## Claim C3: the storage invariant -/

/-- C3 counterexample: the store satisfies `storage_used ≤ storage_all`
(user 1 has 10/10), yet redeeming a card of storage 1 leaves the user
with `storage_all = 1 + 10 - 10 = 1 < 10 = storage_used`: `POST /redeem`
does not preserve the invariant. -/
theorem redeem_breaks_storage_invariant :
    ((invariantDb.users.all fun u =>
        u.storage_used ≤ u.storage_all) = true) ∧
    (((redeem invariantDb (some 1) "AAAAA-AAAAA-AAAAA" "t" "e"
        9).1.users.any fun u => u.storage_all < u.storage_used) =
      true) := by
  decide

/-- C3 (amended): document creation (`POST /users`), updates
(`PUT /users/:id` and the registration flows through
`buildUpdateDocument`), the email-verification `$set`, and the
storage-expiration refresh all preserve `storage_used ≤ storage_all`;
`POST /redeem` alone does not — the redeemed user's document satisfies
the invariant if and only if `2 * storage_used ≤ card.storage +
storage_all` held at redemption time. -/
theorem storage_invariant_spec :
    (∀ payload jd newId ts exp u,
      createUserDocument payload jd newId ts exp = .ok u →
      u.storage_used ≤ u.storage_all) ∧
    (∀ payload current jd ts upd,
      buildUpdateDocument payload current jd ts = .ok upd →
      (applyUserUpdates current upd).storage_used ≤
        (applyUserUpdates current upd).storage_all) ∧
    (∀ u ts, u.storage_used ≤ u.storage_all →
      (registerVerifySet u ts).storage_used ≤
        (registerVerifySet u ts).storage_all) ∧
    (∀ jd nowCn doc, doc.storage_used ≤ doc.storage_all →
      (applyStorageExpiration jd nowCn doc).1.storage_used ≤
        (applyStorageExpiration jd nowCn doc).1.storage_all) ∧
    (∀ db userId redeemId raw now exp user db' res,
      db.users.find? (fun u => u.id == userId) = some user →
      redeem db (some userId) raw now exp redeemId = (db', .ok res) →
      ∃ u', db'.users.find? (fun u => u.id == userId) = some u' ∧
        (u'.storage_used ≤ u'.storage_all ↔
          user.storage_used + user.storage_used ≤
            res.card.storage + user.storage_all)) := by
  refine ⟨?_, ?_, ?_, ?_, ?_⟩
  · intro payload jd newId ts exp u h
    unfold createUserDocument at h
    split at h
    next => exact Except.noConfusion h
    next email heq1 =>
    split at h
    next => exact Except.noConfusion h
    next password heq2 =>
    split at h
    next => exact Except.noConfusion h
    next storageAll heq3 =>
    split at h
    next => exact Except.noConfusion h
    next storageUsed heq4 =>
    try simp only [] at h
    split at h
    next => exact Except.noConfusion h
    next x heq5 =>
    try simp only [] at h
    split at h
    next => exact Except.noConfusion h
    next parsedAt heq6 =>
    try simp only [] at h
    have hu := Except.ok.inj h
    have hle := enforceStorageInvariant_ok _ _ _ heq5
    rw [← hu]
    exact hle
  · intro payload current jd ts upd h
    unfold buildUpdateDocument at h
    split at h
    next => exact Except.noConfusion h
    next email heq1 =>
    split at h
    next => exact Except.noConfusion h
    next password heq2 =>
    split at h
    next => exact Except.noConfusion h
    next storageAll heq3 =>
    split at h
    next => exact Except.noConfusion h
    next storageUsed heq4 =>
    try simp only [] at h
    split at h
    next => exact Except.noConfusion h
    next x heq5 =>
    try simp only [] at h
    split at h
    next => exact Except.noConfusion h
    next storageExpiredAt heq6 =>
    try simp only [] at h
    split at h
    next => exact Except.noConfusion h
    next role heq7 =>
    have hle := enforceStorageInvariant_ok _ _ _ heq5
    split at h
    next => exact Except.noConfusion h
    next =>
    have hu := Except.ok.inj h
    rw [← hu]
    exact hle
  · intro u ts h
    exact h
  · intro jd nowCn doc h
    rcases hE : applyStorageExpiration jd nowCn doc with ⟨d, b⟩
    show d.storage_used ≤ d.storage_all
    unfold applyStorageExpiration at hE
    split at hE
    · rw [Prod.mk.injEq] at hE
      rw [← hE.1]
      exact h
    · split at hE
      · rw [Prod.mk.injEq] at hE
        rw [← hE.1]
        exact h
      · split at hE
        · rw [Prod.mk.injEq] at hE
          rw [← hE.1]
          exact h
        · split at hE
          · split at hE
            · rw [Prod.mk.injEq] at hE
              rw [← hE.1]
              exact h
            · rw [Prod.mk.injEq] at hE
              rw [← hE.1]
          · rw [Prod.mk.injEq] at hE
            rw [← hE.1]
            exact h
  · intro db userId redeemId raw now exp user db' res hfind hrun
    rcases redeem_ok_inversion db userId redeemId raw now exp db' res
      hrun with ⟨user0, n, hfind0, _, husers⟩
    rw [hfind0] at hfind
    have huser0 : user0 = user := Option.some.inj hfind
    rw [huser0] at husers
    refine ⟨creditUserSet
      (res.card.storage + user.storage_all - user.storage_used) exp now
      user, ?_, ?_⟩
    · rw [husers, find?_updateFirst_fst (fun u => u.id == userId)
        (creditUserSet (res.card.storage + user.storage_all -
          user.storage_used) exp now) db.users (fun x hx => hx), hfind0,
        huser0]
      rfl
    · show user.storage_used ≤
          res.card.storage + user.storage_all - user.storage_used ↔
        user.storage_used + user.storage_used ≤
          res.card.storage + user.storage_all
      omega

/-- C3 witness: concrete runs of all five parts. -/
theorem storage_invariant_spec_witness :
    ((3 : Int) ≤ 5) ∧ ((2 : Int) ≤ 8) ∧ ((5 : Int) ≤ 10) ∧
    ((5 : Int) ≤ 10) ∧
    ∃ u', (redeem creditDb (some 1) "AAAAA-AAAAA-AAAAA" "t" "e"
        9).1.users.find? (fun u => u.id == 1) = some u' ∧
      (u'.storage_used ≤ u'.storage_all ↔
        (5 : Int) + 5 ≤ 7 + 10) := by
  refine ⟨?_, ?_, ?_, ?_, ?_⟩
  · exact storage_invariant_spec.1
      { email := "a@x.com", password := "secret", storage_all := some 5,
        storage_used := some 3, role := none, deleted := none,
        email_verified := none, email_verified_at := none }
      ⟨fun _ => none, fun _ => "x"⟩ 1 "ts" "exp"
      { id := 1, email := "a@x.com", password := "secret",
        storage_all := 5, storage_used := 3,
        storage_expired_at := some "exp", deleted := false,
        role := "standard", created_at := "ts", updated_at := "ts",
        token := none, last_login_at := none, email_verified := false,
        email_verified_at := none } rfl
  · exact storage_invariant_spec.2.1
      { email := none, password := none, storage_all := some 8,
        storage_used := some 2, storage_expired_at := none,
        deleted := none, role := none }
      (mkUser 1 "a@x.com" 10 5) ⟨fun _ => none, fun _ => "x"⟩ "ts"
      { email := none, password := none, storage_all := some 8,
        storage_used := some 2, storage_expired_at := none,
        deleted := none, role := none, updated_at := "ts" } rfl
  · exact storage_invariant_spec.2.2.1 (mkUser 1 "a@x.com" 10 5) "ts"
      (by decide)
  · exact storage_invariant_spec.2.2.2.1 ⟨fun _ => none, fun _ => "x"⟩ 0
      (mkUser 1 "a@x.com" 10 5) (by decide)
  · obtain ⟨u', h1, h2⟩ := storage_invariant_spec.2.2.2.2 creditDb 1 9
      "AAAAA-AAAAA-AAAAA" "t" "e" (mkUser 1 "a@x.com" 10 5) _ _ rfl rfl
    exact ⟨u', h1, h2⟩

/-! ## Claim C10: storage expiration on read -/

theorem applyStorageExpiration_fst_id (jd : JsDate) (nowCn : Int)
    (doc : User) : (applyStorageExpiration jd nowCn doc).1.id = doc.id := by
  rcases hE : applyStorageExpiration jd nowCn doc with ⟨d, b⟩
  show d.id = doc.id
  unfold applyStorageExpiration at hE
  split at hE
  · rw [Prod.mk.injEq] at hE
    rw [← hE.1]
  · split at hE
    · rw [Prod.mk.injEq] at hE
      rw [← hE.1]
    · split at hE
      · rw [Prod.mk.injEq] at hE
        rw [← hE.1]
      · split at hE
        · split at hE
          · rw [Prod.mk.injEq] at hE
            rw [← hE.1]
          · rw [Prod.mk.injEq] at hE
            rw [← hE.1]
        · rw [Prod.mk.injEq] at hE
          rw [← hE.1]

theorem applyStorageExpiration_not_fired (jd : JsDate) (nowCn : Int)
    (doc : User) (h : (applyStorageExpiration jd nowCn doc).2 = false) :
    (applyStorageExpiration jd nowCn doc).1 = doc := by
  rcases hE : applyStorageExpiration jd nowCn doc with ⟨d, b⟩
  rw [hE] at h
  simp only [] at h
  subst h
  show d = doc
  unfold applyStorageExpiration at hE
  split at hE
  · rw [Prod.mk.injEq] at hE
    exact hE.1.symm
  · split at hE
    · rw [Prod.mk.injEq] at hE
      exact hE.1.symm
    · split at hE
      · rw [Prod.mk.injEq] at hE
        exact hE.1.symm
      · split at hE
        · split at hE
          · rw [Prod.mk.injEq] at hE
            exact hE.1.symm
          · rw [Prod.mk.injEq] at hE
            exact absurd hE.2 (by simp)
        · rw [Prod.mk.injEq] at hE
          exact hE.1.symm

theorem refreshStorageIfExpired_snd_id (db : Db) (doc : User)
    (jd : JsDate) (nowCn : Int) (ts : String) :
    (refreshStorageIfExpired db doc jd nowCn ts).2.id = doc.id := by
  unfold refreshStorageIfExpired
  cases hfired : (applyStorageExpiration jd nowCn doc).2
  · simp only [hfired, Bool.not_false, if_true]
    exact applyStorageExpiration_fst_id jd nowCn doc
  · simp only [hfired, Bool.not_true, Bool.false_eq_true, if_false]
    exact applyStorageExpiration_fst_id jd nowCn doc

theorem refreshStorageIfExpired_fst_find? (db : Db) (doc : User)
    (jd : JsDate) (nowCn : Int) (ts : String)
    (hfindId : db.users.find? (fun u => u.id == doc.id) = some doc) :
    ∃ p, (refreshStorageIfExpired db doc jd nowCn ts).1.users.find?
        (fun u => u.id == doc.id) = some p ∧
      p.storage_all =
        (refreshStorageIfExpired db doc jd nowCn ts).2.storage_all ∧
      p.storage_used =
        (refreshStorageIfExpired db doc jd nowCn ts).2.storage_used ∧
      p.updated_at =
        (refreshStorageIfExpired db doc jd nowCn ts).2.updated_at := by
  unfold refreshStorageIfExpired
  cases hfired : (applyStorageExpiration jd nowCn doc).2
  · simp only [hfired, Bool.not_false, if_true]
    have hfst := applyStorageExpiration_not_fired jd nowCn doc hfired
    exact ⟨doc, hfindId, by rw [hfst], by rw [hfst], by rw [hfst]⟩
  · simp only [hfired, Bool.not_true, Bool.false_eq_true, if_false]
    refine ⟨{ doc with
        storage_all := (applyStorageExpiration jd nowCn doc).1.storage_all
        storage_used := (applyStorageExpiration jd nowCn doc).1.storage_used
        updated_at := ts }, ?_, rfl, rfl, rfl⟩
    rw [find?_updateFirst_fst (fun u => u.id == doc.id)
      (fun u => { u with
        storage_all := (applyStorageExpiration jd nowCn doc).1.storage_all
        storage_used := (applyStorageExpiration jd nowCn doc).1.storage_used
        updated_at := ts })
      db.users (fun x hx => hx), hfindId]
    rfl

theorem refresh_fires (doc : User) (jd : JsDate) (nowCn : Int)
    (s : String) (t : Int)
    (hs : doc.storage_expired_at = some s) (hs' : s ≠ "")
    (hp : jd.parse s = some t) (ht : t ≤ nowCn)
    (hnz : ¬(doc.storage_all = 0 ∧ doc.storage_used = 0)) :
    applyStorageExpiration jd nowCn doc =
      ({ doc with storage_all := 0, storage_used := 0 }, true) := by
  unfold applyStorageExpiration
  rw [hs]
  simp only []
  rw [if_neg hs', hp]
  simp only []
  rw [if_pos ht, if_neg hnz]

theorem login_refreshes (db : Db) (emailRaw pwRaw : String) (jd : JsDate)
    (nowCn : Int) (ts : String) (tokenOf : User → String)
    (email2 pw : String) (doc : User)
    (hnorm : normalizeEmail emailRaw = .ok email2)
    (hpw : parsePassword pwRaw = .ok pw)
    (hfind : db.users.find? (fun u => u.email == email2) = some doc)
    (hdel : doc.deleted = false)
    (hpwd : doc.password = pw)
    (hfindId : db.users.find? (fun u => u.id == doc.id) = some doc)
    (htok : tokenOf { (refreshStorageIfExpired db doc jd nowCn ts).2 with
      last_login_at := some ts } ≠ "") :
    ∃ db2 tok u2,
      login db emailRaw pwRaw jd nowCn ts tokenOf = (db2, .ok (u2, tok)) ∧
      u2.storage_all =
        (refreshStorageIfExpired db doc jd nowCn ts).2.storage_all ∧
      u2.storage_used =
        (refreshStorageIfExpired db doc jd nowCn ts).2.storage_used ∧
      ∃ p, db2.users.find? (fun u => u.id == doc.id) = some p ∧
        p.storage_all =
          (refreshStorageIfExpired db doc jd nowCn ts).2.storage_all ∧
        p.storage_used =
          (refreshStorageIfExpired db doc jd nowCn ts).2.storage_used := by
  obtain ⟨q, hq1, hq2, hq3, hq4⟩ :=
    refreshStorageIfExpired_fst_find? db doc jd nowCn ts hfindId
  have hid := refreshStorageIfExpired_snd_id db doc jd nowCn ts
  have hq1s := hq1
  rw [← hid] at hq1s
  have hpres1 : ∀ x : User,
      (x.id == (refreshStorageIfExpired db doc jd nowCn ts).2.id) =
        true →
      (({ x with last_login_at := some ts } : User).id ==
        (refreshStorageIfExpired db doc jd nowCn ts).2.id) = true :=
    fun x hx => hx
  have h1 : (updateFirst
      (fun u : User => u.id ==
        (refreshStorageIfExpired db doc jd nowCn ts).2.id)
      (fun u => { u with last_login_at := some ts })
      (refreshStorageIfExpired db doc jd nowCn ts).1.users).1.find?
        (fun u => u.id ==
          (refreshStorageIfExpired db doc jd nowCn ts).2.id) =
      some { q with last_login_at := some ts } := by
    rw [find?_updateFirst_fst _ _ _ hpres1, hq1s]
    rfl
  have hpres2 : ∀ x : User,
      (x.id == (refreshStorageIfExpired db doc jd nowCn ts).2.id) =
        true →
      (({ x with token := some (tokenOf
          { (refreshStorageIfExpired db doc jd nowCn ts).2 with
            last_login_at := some ts }) } : User).id ==
        (refreshStorageIfExpired db doc jd nowCn ts).2.id) = true :=
    fun x hx => hx
  unfold login
  rw [hnorm]
  try simp only []
  rw [hpw]
  try simp only []
  rw [hfind]
  try simp only []
  rw [if_neg (by simp [hdel, hpwd])]
  try simp only []
  split
  next hcond => exact absurd hcond htok
  next hcond =>
  split
  next hnone =>
      rw [updateFirst_snd, h1] at hnone
      exact absurd hnone (by simp)
  next hnone =>
  refine ⟨_, _,
    { (refreshStorageIfExpired db doc jd nowCn ts).2 with
      last_login_at := some ts }, rfl, rfl, rfl, ?_⟩
  refine ⟨{ { q with last_login_at := some ts } with
    token := some (tokenOf { (refreshStorageIfExpired db doc jd nowCn
      ts).2 with last_login_at := some ts }) }, ?_, hq2, hq3⟩
  show (updateFirst
      (fun u : User => u.id ==
        (refreshStorageIfExpired db doc jd nowCn ts).2.id)
      _ _).1.find? (fun u => u.id == doc.id) = _
  rw [← hid]
  rw [find?_updateFirst_fst _ _ _ hpres2, h1]
  rfl

/-- C10: reading a user whose `storage_expired_at` parses to a time at or
before the China-shifted now zeroes their quota. (a) When the parsed
expiry is due and the storage fields are not already both zero, the
refresh returns the document with `storage_all = 0`, `storage_used = 0`
and a fresh `updated_at`, and persists those fields. (b) When the
expiration step does not fire, the refresh writes nothing and returns the
document unchanged. (c) The step does not fire when `storage_expired_at`
is absent or empty, unparsable, in the future, or the document is already
zeroed (idempotence). (d) `GET /users/:id` and (e) non-admin `GET /users`
respond with the refreshed document over the refreshed store, and (f)
`POST /users/login` responds with and persists the refreshed storage
fields. -/
theorem storage_expiration_spec :
    (∀ db doc jd nowCn ts s t,
      doc.storage_expired_at = some s → s ≠ "" →
      JsDate.parse jd s = some t → t ≤ nowCn →
      ¬(doc.storage_all = 0 ∧ doc.storage_used = 0) →
      (refreshStorageIfExpired db doc jd nowCn ts).2 =
        zeroedStorage doc ts ∧
      (db.users.find? (fun u => u.id == doc.id) = some doc →
        ∃ p, (refreshStorageIfExpired db doc jd nowCn ts).1.users.find?
            (fun u => u.id == doc.id) = some p ∧
          p.storage_all = 0 ∧ p.storage_used = 0 ∧ p.updated_at = ts)) ∧
    (∀ db doc jd nowCn ts,
      (applyStorageExpiration jd nowCn doc).2 = false →
      refreshStorageIfExpired db doc jd nowCn ts = (db, doc)) ∧
    (∀ jd nowCn doc,
      (doc.storage_expired_at = none →
        applyStorageExpiration jd nowCn doc = (doc, false)) ∧
      (doc.storage_expired_at = some "" →
        applyStorageExpiration jd nowCn doc = (doc, false)) ∧
      (∀ s, doc.storage_expired_at = some s → s ≠ "" →
        JsDate.parse jd s = none →
        applyStorageExpiration jd nowCn doc = (doc, false)) ∧
      (∀ s t, doc.storage_expired_at = some s → s ≠ "" →
        JsDate.parse jd s = some t → nowCn < t →
        applyStorageExpiration jd nowCn doc = (doc, false)) ∧
      (∀ s t, doc.storage_expired_at = some s → s ≠ "" →
        JsDate.parse jd s = some t → t ≤ nowCn →
        doc.storage_all = 0 → doc.storage_used = 0 →
        applyStorageExpiration jd nowCn doc = (doc, false))) ∧
    (∀ db authUser uid doc jd nowCn ts,
      authUser.id = uid →
      db.users.find? (fun u => u.id == uid) = some doc →
      getUserById db authUser (some uid) jd nowCn ts =
        ((refreshStorageIfExpired db doc jd nowCn ts).1,
         .ok (refreshStorageIfExpired db doc jd nowCn ts).2)) ∧
    (∀ db authUser includeDeleted doc jd nowCn ts,
      isAdmin authUser = false →
      db.users.find? (fun u => u.id == authUser.id) = some doc →
      getUsers db authUser includeDeleted jd nowCn ts =
        ((refreshStorageIfExpired db doc jd nowCn ts).1,
         .ok [(refreshStorageIfExpired db doc jd nowCn ts).2])) ∧
    (∀ db emailRaw pwRaw jd nowCn ts tokenOf email2 pw doc,
      normalizeEmail emailRaw = .ok email2 →
      parsePassword pwRaw = .ok pw →
      db.users.find? (fun u => u.email == email2) = some doc →
      doc.deleted = false →
      doc.password = pw →
      db.users.find? (fun u => u.id == doc.id) = some doc →
      tokenOf { (refreshStorageIfExpired db doc jd nowCn ts).2 with
        last_login_at := some ts } ≠ "" →
      ∃ db2 tok u2,
        login db emailRaw pwRaw jd nowCn ts tokenOf =
          (db2, .ok (u2, tok)) ∧
        u2.storage_all =
          (refreshStorageIfExpired db doc jd nowCn ts).2.storage_all ∧
        u2.storage_used =
          (refreshStorageIfExpired db doc jd nowCn ts).2.storage_used ∧
        ∃ p, db2.users.find? (fun u => u.id == doc.id) = some p ∧
          p.storage_all =
            (refreshStorageIfExpired db doc jd nowCn ts).2.storage_all ∧
          p.storage_used =
            (refreshStorageIfExpired db doc jd nowCn ts).2.storage_used) := by
  refine ⟨?_, ?_, ?_, ?_, ?_, ?_⟩
  · intro db doc jd nowCn ts s t hs hs' hp ht hnz
    have happly := refresh_fires doc jd nowCn s t hs hs' hp ht hnz
    have hsnd : (refreshStorageIfExpired db doc jd nowCn ts).2 =
        zeroedStorage doc ts := by
      unfold refreshStorageIfExpired
      rw [happly]
      rfl
    refine ⟨hsnd, ?_⟩
    intro hfind
    obtain ⟨p, hp1, hp2, hp3, hp4⟩ :=
      refreshStorageIfExpired_fst_find? db doc jd nowCn ts hfind
    refine ⟨p, hp1, ?_, ?_, ?_⟩
    · rw [hp2, hsnd]
      rfl
    · rw [hp3, hsnd]
      rfl
    · rw [hp4, hsnd]
      rfl
  · intro db doc jd nowCn ts h
    have hfst := applyStorageExpiration_not_fired jd nowCn doc h
    unfold refreshStorageIfExpired
    simp only []
    rw [h, hfst]
    rfl
  · intro jd nowCn doc
    refine ⟨?_, ?_, ?_, ?_, ?_⟩
    · intro hnone
      unfold applyStorageExpiration
      rw [hnone]
    · intro hempty
      unfold applyStorageExpiration
      rw [hempty]
      simp only []
      simp
    · intro s hs hs' hp
      unfold applyStorageExpiration
      rw [hs]
      simp only []
      rw [if_neg hs', hp]
    · intro s t hs hs' hp hlt
      unfold applyStorageExpiration
      rw [hs]
      simp only []
      rw [if_neg hs', hp]
      simp only []
      rw [if_neg (not_le.mpr hlt)]
    · intro s t hs hs' hp ht hz1 hz2
      unfold applyStorageExpiration
      rw [hs]
      simp only []
      rw [if_neg hs', hp]
      simp only []
      rw [if_pos ht, if_pos ⟨hz1, hz2⟩]
  · intro db authUser uid doc jd nowCn ts hacc hfind
    unfold getUserById
    simp only []
    rw [if_neg (by simp [hacc]), hfind]
  · intro db authUser includeDeleted doc jd nowCn ts hadmin hfind
    unfold getUsers
    simp only []
    rw [if_neg (by simp [hadmin]), hfind]
  · intro db emailRaw pwRaw jd nowCn ts tokenOf email2 pw doc hnorm hpw
      hfind hdel hpwd hfindId htok
    exact login_refreshes db emailRaw pwRaw jd nowCn ts tokenOf email2
      pw doc hnorm hpw hfind hdel hpwd hfindId htok

/-- C10 witness: concrete runs of all six parts over `expiredDb`. -/
theorem storage_expiration_spec_witness :
    ((refreshStorageIfExpired expiredDb expiredUser jdFixed 200 "ts").2 =
        zeroedStorage expiredUser "ts" ∧
      ∃ p, (refreshStorageIfExpired expiredDb expiredUser jdFixed 200
          "ts").1.users.find? (fun u => u.id == expiredUser.id) =
            some p ∧
        p.storage_all = 0 ∧ p.storage_used = 0 ∧ p.updated_at = "ts") ∧
    refreshStorageIfExpired expiredDb (mkUser 2 "b@x.com" 3 1) jdFixed
      200 "ts" = (expiredDb, mkUser 2 "b@x.com" 3 1) ∧
    applyStorageExpiration jdFixed 200 (mkUser 2 "b@x.com" 3 1) =
      (mkUser 2 "b@x.com" 3 1, false) ∧
    applyStorageExpiration jdFixed 200 zeroedExpiredUser =
      (zeroedExpiredUser, false) ∧
    getUserById expiredDb expiredUser (some 1) jdFixed 200 "ts" =
      ((refreshStorageIfExpired expiredDb expiredUser jdFixed 200
          "ts").1,
       .ok (refreshStorageIfExpired expiredDb expiredUser jdFixed 200
          "ts").2) ∧
    getUsers expiredDb expiredUser false jdFixed 200 "ts" =
      ((refreshStorageIfExpired expiredDb expiredUser jdFixed 200
          "ts").1,
       .ok [(refreshStorageIfExpired expiredDb expiredUser jdFixed 200
          "ts").2]) ∧
    ∃ db2 tok u2,
      login expiredDb "a@x.com" "secret" jdFixed 200 "ts"
        (fun _ => "tok") = (db2, .ok (u2, tok)) ∧
      u2.storage_all = (refreshStorageIfExpired expiredDb expiredUser
        jdFixed 200 "ts").2.storage_all ∧
      u2.storage_used = (refreshStorageIfExpired expiredDb expiredUser
        jdFixed 200 "ts").2.storage_used ∧
      ∃ p, db2.users.find? (fun u => u.id == expiredUser.id) = some p ∧
        p.storage_all = (refreshStorageIfExpired expiredDb expiredUser
          jdFixed 200 "ts").2.storage_all ∧
        p.storage_used = (refreshStorageIfExpired expiredDb expiredUser
          jdFixed 200 "ts").2.storage_used := by
  have hA := storage_expiration_spec.1 expiredDb expiredUser jdFixed 200
    "ts" "2020" 100 rfl (by decide) rfl (by decide) (by decide)
  refine ⟨⟨hA.1, hA.2 rfl⟩, ?_, ?_, ?_, ?_, ?_, ?_⟩
  · exact storage_expiration_spec.2.1 expiredDb (mkUser 2 "b@x.com" 3 1)
      jdFixed 200 "ts" rfl
  · exact (storage_expiration_spec.2.2.1 jdFixed 200
      (mkUser 2 "b@x.com" 3 1)).1 rfl
  · exact (storage_expiration_spec.2.2.1 jdFixed 200
      zeroedExpiredUser).2.2.2.2 "2020" 100 rfl (by decide) rfl
      (by decide) rfl rfl
  · exact storage_expiration_spec.2.2.2.1 expiredDb expiredUser 1
      expiredUser jdFixed 200 "ts" rfl rfl
  · exact storage_expiration_spec.2.2.2.2.1 expiredDb expiredUser false
      expiredUser jdFixed 200 "ts" (by decide) rfl
  · exact storage_expiration_spec.2.2.2.2.2 expiredDb "a@x.com" "secret"
      jdFixed 200 "ts" (fun _ => "tok") "a@x.com" "secret" expiredUser
      rfl rfl rfl rfl rfl rfl (by decide)

end DebridServer
